import Mathlib

/-!
Verification of the tool-augmented chat-completion core of the
Langchain_101 repository: messages and conversations, the hand-written
tool-calling cycles of `model_01.py` and `message_01.py`, the model
router of `agent_01.py`, the `string_counter` tool of `tools_01.py`,
and - modelled from the spec where the deciding code lives in the
imported framework - the iteration-bounded tool-call loop, the
streaming client contract and the thread-keyed memory store.
-/

namespace Langchain101

/-- A model-issued request to call a named tool: call id, tool name and
the (serialized) argument value.  Mirrors the `tool_call` dicts
(`\x7b"id": ..., "name": ..., "args": ...\x7d`) produced by LangChain
models. -/
structure ToolCall where
  id : String
  name : String
  args : String
deriving Repr, DecidableEq

/-- A conversation message, as in `langchain_core.messages`:
`HumanMessage`, `SystemMessage`, `AIMessage` (with its requested tool
calls) and `ToolMessage` (content, `tool_call_id`, tool name). -/
inductive Msg where
  | human (content : String)
  | system (content : String)
  | ai (content : String) (tool_calls : List ToolCall)
  | tool (content : String) (tool_call_id : String) (name : String)
deriving Repr, DecidableEq

/-- A Conversation: ordered list of messages. -/
abbrev Conversation := List Msg

/-- An abstract chat model (the external `ChatOllama` client): given a
conversation it returns the content and requested tool calls of one new
assistant message. -/
abbrev ChatModel := Conversation → String × List ToolCall

/- ===================================================================
   tools_01.py - the `string_counter` tool (claim C10)
   =================================================================== -/

/-- One step of Python's `collections.Counter` construction: bump the
count of character `c` in an insertion-ordered association list,
appending a fresh `(c, 1)` entry on first encounter. -/
def bumpCount : List (Char × Nat) → Char → List (Char × Nat)
  | [], c => [(c, 1)]
  | (k, n) :: rest, c =>
      if k = c then (k, n + 1) :: rest else (k, n) :: bumpCount rest c

/-- `collections.Counter(word)` as an insertion-ordered association
list from character to occurrence count (Python dicts preserve
first-encounter key order). -/
def counterOf (w : List Char) : List (Char × Nat) :=
  w.foldl bumpCount []

/-- Count recorded for `c` in a counter association list (0 if absent),
the mapping the rendered dict denotes. -/
def lookupCount (l : List (Char × Nat)) (c : Char) : Nat :=
  match l with
  | [] => 0
  | (k, n) :: rest => if k = c then n else lookupCount rest c

/-- A single quote character, for Python `repr` of a dict key. -/
def squote : String := String.mk [Char.ofNat 39]

/-- Python `repr` of one dict entry `(c, n)`: `'c': n`. -/
def reprEntry (e : Char × Nat) : String :=
  squote ++ String.mk [e.1] ++ squote ++ ": " ++ toString e.2

/-- Python `str(dict(...))` of a counter association list:
entries joined by `", "` inside braces. -/
def pyDictRepr (l : List (Char × Nat)) : String :=
  "\x7b" ++ String.intercalate ", " (l.map reprEntry) ++ "\x7d"

/-- `calc` from `tools_01.py` (the `string_counter` tool):
`return str(dict(Counter(word)))`. -/
def calcTool (word : String) : String :=
  pyDictRepr (counterOf word.data)

/- ===================================================================
   model_01.py - `tool_calling_example` (claims C1, C2, C3, C4)
   =================================================================== -/

/-- `get_weather` from `model_01.py`:
`return f"It's sunny in \x7blocation\x7d with 27°C."`. -/
def get_weather (location : String) : String :=
  "It" ++ squote ++ "s sunny in " ++ location ++ " with 27°C."

/-- `get_weather.invoke(tool_call)` from `model_01.py`: invoking a
LangChain tool with a full tool-call dict returns a `ToolMessage`
carrying the tool's string result, the call's id and the tool name. -/
def get_weather_invoke (tc : ToolCall) : Msg :=
  Msg.tool (get_weather tc.args) tc.id tc.name

/-- One model invocation together with a running count of how many
round-trips to the model have been performed. -/
def invokeCounted (model : ChatModel) (msgs : Conversation) (calls : Nat) :
    (String × List ToolCall) × Nat :=
  (model msgs, calls + 1)

/-- Outcome of one hand-written tool-calling run: the conversation list
as the source leaves it, the content of the last model response, and
the number of model invocations performed. -/
structure RunResult where
  conv : Conversation
  final_content : String
  model_invocations : Nat
deriving Repr

/-- `messages` of `tool_calling_example` before the first model call:
`[HumanMessage(content=query)]` (the source hardcodes the Mumbai
weather query; we keep the query as a parameter). -/
def tce_messages0 (query : String) : Conversation := [Msg.human query]

/-- The assistant message returned by the first model call of
`tool_calling_example`. -/
def tce_ai_msg (model : ChatModel) (query : String) : Msg :=
  Msg.ai (model (tce_messages0 query)).1 (model (tce_messages0 query)).2

/-- `messages` after `messages.append(ai_msg)`. -/
def tce_messages1 (model : ChatModel) (query : String) : Conversation :=
  tce_messages0 query ++ [tce_ai_msg model query]

/-- The tool messages appended by the `for tool_call in
ai_msg.tool_calls` loop: only calls whose name is `"get_weather"` are
executed and appended; every other requested call is skipped. -/
def tce_tool_msgs (model : ChatModel) (query : String) : List Msg :=
  ((model (tce_messages0 query)).2.filter
      (fun tc => tc.name == "get_weather")).map get_weather_invoke

/-- `messages` after the tool-execution loop of `tool_calling_example`
(the final model response is printed, never appended). -/
def tce_messages2 (model : ChatModel) (query : String) : Conversation :=
  tce_messages1 model query ++ tce_tool_msgs model query

/-- `tool_calling_example` from `model_01.py`: one model call, append
the assistant message, execute-and-append results for the requested
calls named `"get_weather"`, then unconditionally invoke the model a
second time for the final answer. -/
def tool_calling_example (model : ChatModel) (query : String) : RunResult :=
  let step1 := invokeCounted model (tce_messages0 query) 0
  let ai_msg := Msg.ai step1.1.1 step1.1.2
  let messages1 := tce_messages0 query ++ [ai_msg]
  let messages2 := messages1 ++
    (step1.1.2.filter (fun tc => tc.name == "get_weather")).map get_weather_invoke
  let step2 := invokeCounted model messages2 step1.2
  { conv := messages2, final_content := step2.1.1, model_invocations := step2.2 }

/- ===================================================================
   message_01.py - section 5, the full tool-calling cycle
   (claims C2, C3)
   =================================================================== -/

/-- `get_weather` from `message_01.py`:
`return f"Sunny, 25°C in \x7blocation\x7d"`. -/
def m01_get_weather (location : String) : String :=
  "Sunny, 25°C in " ++ location

/-- `get_weather.invoke(tool_call_data)` from `message_01.py`: a
`ToolMessage` carrying the mock result, the call id and the name. -/
def m01_get_weather_invoke (tc : ToolCall) : Msg :=
  Msg.tool (m01_get_weather tc.args) tc.id tc.name

/-- Python `str(...)` of a message object as used in
`ToolMessage(content=str(tool_result), ...)`: a `ToolMessage` renders
its fields, other messages render their content. -/
def pyStrOf : Msg → String
  | Msg.tool c cid nm =>
      "content=" ++ squote ++ c ++ squote ++ " name=" ++ squote ++ nm ++ squote
        ++ " tool_call_id=" ++ squote ++ cid ++ squote
  | Msg.human c => c
  | Msg.system c => c
  | Msg.ai c _ => c

/-- Section 5 of `message_01.py`: invoke the model on the query; if the
response carries tool calls, execute the FIRST one, build the
`ToolMessage`, assemble `final_messages` and invoke the model again;
otherwise stop after the single round-trip (`else` branch prints
"Model decided not to call a tool"). -/
def model_with_tools_cycle (model : ChatModel) (query : String) : RunResult :=
  let step1 := invokeCounted model [Msg.human query] 0
  let ai_msg_with_tool_call := Msg.ai step1.1.1 step1.1.2
  match step1.1.2 with
  | [] =>
      { conv := [Msg.human query, ai_msg_with_tool_call]
        final_content := step1.1.1
        model_invocations := step1.2 }
  | tool_call_data :: _ =>
      let tool_result := m01_get_weather_invoke tool_call_data
      let tool_msg :=
        Msg.tool (pyStrOf tool_result) tool_call_data.id tool_call_data.name
      let final_messages := [Msg.human query, ai_msg_with_tool_call, tool_msg]
      let step2 := invokeCounted model final_messages step1.2
      { conv := final_messages
        final_content := step2.1.1
        model_invocations := step2.2 }

/- ===================================================================
   Conversation invariant: tool-call-id pairing (claim C3)
   =================================================================== -/

/-- Checks, left to right, that every tool message's `tool_call_id` is
one of the call ids offered by the nearest preceding assistant message
(`avail` holds those ids; an assistant message replaces them, so the
pairing is with the assistant message that introduced the call, never
with an older one and never by position). -/
def toolIdsMatch (avail : List String) : Conversation → Bool
  | [] => true
  | Msg.human _ :: rest => toolIdsMatch avail rest
  | Msg.system _ :: rest => toolIdsMatch avail rest
  | Msg.ai _ tcs :: rest => toolIdsMatch (tcs.map ToolCall.id) rest
  | Msg.tool _ cid _ :: rest => decide (cid ∈ avail) && toolIdsMatch avail rest

/- ===================================================================
   agent_01.py - `route_model` (claim C9)
   =================================================================== -/

/-- The two models of `agent_01.py`: `simple_model` (llama3.2) and
`complex_model` (qwen3:14b). -/
inductive RoutedModel where
  | simple_model
  | complex_model
deriving Repr, DecidableEq

/-- The `content` attribute of a message. -/
def contentOf : Msg → String
  | Msg.human c => c
  | Msg.system c => c
  | Msg.ai c _ => c
  | Msg.tool c _ _ => c

/-- Python `str.lower` (characterwise, as for the ASCII prompts the
source routes on). -/
def toLowerStr (s : String) : String :=
  String.mk (s.data.map Char.toLower)

/-- `needle` begins the list `hay` (Python slice-equality at offset 0). -/
def beginsWith : List Char → List Char → Bool
  | _, [] => true
  | [], _ :: _ => false
  | a :: hs, b :: ns => a == b && beginsWith hs ns

/-- Python's substring test `needle in hay`, scanning every offset. -/
def pyContains (needle : List Char) : List Char → Bool
  | [] => needle.isEmpty
  | c :: t => beginsWith (c :: t) needle || pyContains needle t

/-- `sub in s` for strings. -/
def strContains (s sub : String) : Bool :=
  pyContains sub.data s.data

/-- `route_model` from `agent_01.py`: lowercase the content of the last
formatted message; pick the complex model when it contains `"search"`
or `"trending"`, the simple model otherwise.  `info.messages[-1]` on an
empty message list raises `IndexError` in Python, rendered as `none`. -/
def route_model (messages : Conversation) : Option RoutedModel :=
  match messages.getLast? with
  | none => none
  | some m =>
      let last_message := toLowerStr (contentOf m)
      if strContains last_message "search" || strContains last_message "trending" then
        some RoutedModel.complex_model
      else
        some RoutedModel.simple_model

/- ===================================================================
   Spec-modelled components: the deciding code lives in the imported
   langchain / langgraph framework, not in this repository.
   =================================================================== -/

/-- A tool registry as a name-to-executable mapping (name uniqueness is
irrelevant to lookup by first match). -/
abbrev ToolRegistry := List (String × (String → String))

/-- First executable registered under `nm`, if any. -/
def regLookup (reg : ToolRegistry) (nm : String) : Option (String → String) :=
  match reg with
  | [] => none
  | (k, f) :: rest => if k = nm then some f else regLookup rest nm

/-- Modelled from the spec: Tool Registry `execute` (the registry lives
in `langchain_core.tools`, not in this repository).  It looks the name
up; an unregistered name (`UnknownToolError`) is recovered into a
result carrying an error string rather than propagating, so the loop
feeds the error back to the model as the tool's answer. -/
def registryExecute (reg : ToolRegistry) (tc : ToolCall) : Msg :=
  match regLookup reg tc.name with
  | some f => Msg.tool (f tc.args) tc.id tc.name
  | none => Msg.tool ("UnknownToolError: " ++ tc.name) tc.id tc.name

/-- Terminal state of the spec's tool-call loop. -/
inductive LoopOutcome where
  | done
  | maxIterationsExceeded
deriving Repr, DecidableEq

/-- One finished loop run: the final conversation, the terminal state
and the number of model round-trips performed. -/
structure LoopRun where
  conv : Conversation
  outcome : LoopOutcome
  iterations : Nat
deriving Repr

/-- Modelled from the spec: the Tool-Call Loop of §4.3 with its
iteration-count ceiling (the loop lives in `langchain.agents`'s
`create_agent` executor, not in this repository).  Each round:
call the model, append the assistant message; zero tool calls ends the
run as `done`; otherwise execute every requested call in order through
the registry, append the results in the same order, and recurse; an
exhausted ceiling is reported as `maxIterationsExceeded`, never a
crash. -/
def toolLoop (model : ChatModel) (reg : ToolRegistry) :
    Nat → Conversation → LoopRun
  | 0, conv => { conv := conv, outcome := .maxIterationsExceeded, iterations := 0 }
  | fuel + 1, conv =>
      let r := model conv
      let conv1 := conv ++ [Msg.ai r.1 r.2]
      match r.2 with
      | [] => { conv := conv1, outcome := .done, iterations := 1 }
      | tc :: tcs =>
          let conv2 := conv1 ++ (tc :: tcs).map (registryExecute reg)
          let rest := toolLoop model reg fuel conv2
          { conv := rest.conv, outcome := rest.outcome,
            iterations := rest.iterations + 1 }

/-- The spec's default iteration ceiling. -/
def defaultMaxIterations : Nat := 10

/- ===================================================================
   Spec-modelled Memory Store (claims C7, C8)
   =================================================================== -/

/-- Modelled from the spec: the Memory Store of §4.4 (the
`InMemorySaver` / `PostgresSaver` checkpointers live in langgraph, not
in this repository): a mapping from thread identifier to Conversation,
as an association list. -/
abbrev MemStore := List (String × Conversation)

/-- Modelled from the spec: `load(thread_id)` returns the stored
Conversation or an empty one if the identifier is unseen. -/
def load (store : MemStore) (t : String) : Conversation :=
  match store with
  | [] => []
  | (k, c) :: rest => if k = t then c else load rest t

/-- Modelled from the spec: `save(thread_id, conversation)` overwrites
the value stored for that thread and creates the thread on first use;
no other thread's entry is touched. -/
def save (store : MemStore) (t : String) (c : Conversation) : MemStore :=
  match store with
  | [] => [(t, c)]
  | (k, v) :: rest => if k = t then (k, c) :: rest else (k, v) :: save rest t c

/-- A whole checkpointed invocation, as the memory demos drive it:
load the thread's history, run the tool-call loop on it extended with
the new user message, save the resulting conversation back under the
same thread identifier. -/
def loopInvoke (model : ChatModel) (reg : ToolRegistry) (store : MemStore)
    (t : String) (userText : String) : MemStore × LoopRun :=
  let conv := load store t
  let run := toolLoop model reg defaultMaxIterations (conv ++ [Msg.human userText])
  (save store t run.conv, run)

/- ===================================================================
   Spec-modelled streaming Model Client (claim C5)
   =================================================================== -/

/-- Modelled from the spec: the Model Client's incremental generation
(`ChatOllama.stream` lives in `langchain_ollama`, not in this
repository).  The client's generation of an assistant reply is a
finite list of content fragments in arrival order; `complete` returns
the single assistant message accumulated from them. -/
structure StreamClient where
  fragments : Conversation → List String

/-- Modelled from the spec: `stream(conversation)` - the lazy, finite
sequence of fragments, in strict arrival order. -/
def StreamClient.streamRun (cl : StreamClient) (conv : Conversation) : List String :=
  cl.fragments conv

/-- Modelled from the spec: `complete(conversation)` - exactly one new
assistant message whose content is the accumulated generation. -/
def StreamClient.complete (cl : StreamClient) (conv : Conversation) : Msg :=
  Msg.ai (String.join (cl.fragments conv)) []

/-- The streaming consumer of `message_01.py` section 8:
`full_text = ""` then `full_text += str(chunk.content)` per chunk. -/
def stream_full_text (cl : StreamClient) (prompt : String) : String :=
  (cl.streamRun [Msg.human prompt]).foldl (fun acc c => acc ++ c) ""

/-- The ELI5 template of `agent_00.py`. -/
def eli5_prompt (topic : String) : String :=
  "Explain the following topic like I" ++ squote ++ "m 5 years old: " ++ topic

/-- `explain_like_5` from `agent_00.py`: format the prompt, pipe it to
the model, and yield each chunk's content in arrival order. -/
def explain_like_5 (cl : StreamClient) (topic : String) : List String :=
  cl.streamRun [Msg.human (eli5_prompt topic)]

/- ===================================================================
   Concrete stub models and small predicates used in the analysis
   =================================================================== -/

/-- A stub model that requests a single call to an unregistered tool
name on the opening query and requests nothing afterwards. -/
def unknownToolModel : ChatModel := fun conv =>
  if conv.length ≤ 1 then
    ("", [⟨"call1", "unknown_tool", "Mumbai"⟩])
  else
    ("no tool answer arrived", [])

/-- A stub model that never requests tool calls. -/
def noToolModel : ChatModel := fun _ => ("hello", [])

/-- A stub model that requests a tool call on every response. -/
def alwaysCallModel : ChatModel := fun _ =>
  ("", [⟨"c1", "multiply", "6,7"⟩])

/-- A stub model that requests one `get_weather` call and one call to
an unregistered name, in the same response. -/
def mixedCallModel : ChatModel := fun _ =>
  ("", [⟨"a", "get_weather", "Delhi"⟩, ⟨"b", "search_web", "x"⟩])

/-- Whether a message has the tool role. -/
def isToolMsg : Msg → Bool
  | Msg.tool _ _ _ => true
  | _ => false

/- ===================================================================
   Helper lemmas
   =================================================================== -/

lemma lookupCount_bumpCount (l : List (Char × Nat)) (x c : Char) :
    lookupCount (bumpCount l x) c =
      lookupCount l c + (if x = c then 1 else 0) := by
  induction l with
  | nil =>
      by_cases h : x = c
      · subst h; simp [bumpCount, lookupCount]
      · simp [bumpCount, lookupCount, h, fun hh : c = x => h hh.symm]
  | cons e rest ih =>
      obtain ⟨k, n⟩ := e
      simp only [bumpCount]
      by_cases hk : k = x
      · subst hk
        rw [if_pos rfl]
        simp only [lookupCount]
        by_cases hc : k = c
        · subst hc; simp
        · simp [hc]
      · rw [if_neg hk]
        simp only [lookupCount]
        by_cases hc : k = c
        · subst hc
          have hxc : ¬x = k := fun hh => hk hh.symm
          simp [hxc]
        · simp [hc, ih]

lemma lookupCount_foldl (w : List Char) (acc : List (Char × Nat)) (c : Char) :
    lookupCount (w.foldl bumpCount acc) c =
      lookupCount acc c + w.count c := by
  induction w generalizing acc with
  | nil => simp [List.count_nil]
  | cons x xs ih =>
      simp only [List.foldl_cons, ih, lookupCount_bumpCount, List.count_cons]
      by_cases h : x = c
      · subst h; simp; omega
      · have hb : ¬(c = x) := fun hh => h hh.symm
        simp [h, hb]

lemma beginsWith_iff (p l : List Char) :
    beginsWith l p = true ↔ p <+: l := by
  induction p generalizing l with
  | nil => simp [beginsWith]
  | cons b bs ih =>
      cases l with
      | nil => simp [beginsWith]
      | cons a hs =>
          simp only [beginsWith, Bool.and_eq_true, beq_iff_eq, ih,
            List.cons_prefix_cons]
          constructor
          · rintro ⟨h1, h2⟩; exact ⟨h1.symm, h2⟩
          · rintro ⟨h1, h2⟩; exact ⟨h1.symm, h2⟩

lemma pyContains_iff (n h : List Char) :
    pyContains n h = true ↔ n <:+: h := by
  induction h with
  | nil =>
      simp only [pyContains, List.isEmpty_iff]
      constructor
      · intro hn; simp [hn]
      · intro hn; exact List.eq_nil_of_infix_nil hn
  | cons c t ih =>
      simp only [pyContains, Bool.or_eq_true, beginsWith_iff, ih,
        List.infix_cons_iff]

lemma strContains_iff (s sub : String) :
    strContains s sub = true ↔ sub.data <:+: s.data :=
  pyContains_iff sub.data s.data

lemma toolIdsMatch_map_get_weather (avail : List String) (l : List ToolCall)
    (h : ∀ tc ∈ l, tc.id ∈ avail) :
    toolIdsMatch avail (l.map get_weather_invoke) = true := by
  induction l with
  | nil => rfl
  | cons tc rest ih =>
      simp only [List.map_cons, get_weather_invoke, toolIdsMatch,
        Bool.and_eq_true, decide_eq_true_eq]
      exact ⟨h tc (List.mem_cons_self tc rest),
        ih fun tc' h' => h tc' (List.mem_cons_of_mem _ h')⟩

lemma toolLoop_conv_prefix (model : ChatModel) (reg : ToolRegistry) :
    ∀ (fuel : Nat) (conv : Conversation),
      conv <+: (toolLoop model reg fuel conv).conv := by
  intro fuel
  induction fuel with
  | zero => intro conv; exact List.prefix_rfl
  | succ fuel ih =>
      intro conv
      simp only [toolLoop]
      cases h : (model conv).2 with
      | nil => exact List.prefix_append conv _
      | cons tc tcs =>
          exact List.IsPrefix.trans
            (by rw [List.append_assoc]; exact List.prefix_append conv _)
            (ih (conv ++ [Msg.ai (model conv).1 (tc :: tcs)] ++
              (tc :: tcs).map (registryExecute reg)))

lemma toolLoop_iterations_le (model : ChatModel) (reg : ToolRegistry) :
    ∀ (fuel : Nat) (conv : Conversation),
      (toolLoop model reg fuel conv).iterations ≤ fuel := by
  intro fuel
  induction fuel with
  | zero => intro conv; exact Nat.le_refl 0
  | succ fuel ih =>
      intro conv
      simp only [toolLoop]
      cases h : (model conv).2 with
      | nil => exact Nat.succ_le_succ (Nat.zero_le fuel)
      | cons tc tcs => exact Nat.succ_le_succ (ih _)

lemma toolLoop_always_calls_max (model : ChatModel) (reg : ToolRegistry)
    (halways : ∀ c, (model c).2 ≠ []) :
    ∀ (fuel : Nat) (conv : Conversation),
      (toolLoop model reg fuel conv).outcome = LoopOutcome.maxIterationsExceeded ∧
      (toolLoop model reg fuel conv).iterations = fuel := by
  intro fuel
  induction fuel with
  | zero => intro conv; exact ⟨rfl, rfl⟩
  | succ fuel ih =>
      intro conv
      simp only [toolLoop]
      cases h : (model conv).2 with
      | nil => exact absurd h (halways conv)
      | cons tc tcs =>
          exact ⟨(ih _).1, congrArg (· + 1) (ih _).2⟩

lemma load_save_same : ∀ (s : MemStore) (t : String) (c : Conversation),
    load (save s t c) t = c := by
  intro s t c
  induction s with
  | nil => simp [save, load]
  | cons e rest ih =>
      obtain ⟨k, v⟩ := e
      by_cases h : k = t
      · subst h; simp [save, load]
      · simp [save, load, h, ih]

lemma load_save_other : ∀ (s : MemStore) (t : String) (c : Conversation)
    (t' : String), t' ≠ t → load (save s t c) t' = load s t' := by
  intro s t c t' hne
  induction s with
  | nil =>
      simp only [save, load]
      rw [if_neg fun hh : t = t' => hne hh.symm]
  | cons e rest ih =>
      obtain ⟨k, v⟩ := e
      by_cases h : k = t
      · subst h
        simp only [save, if_pos rfl, load]
        rw [if_neg fun hh : k = t' => hne hh.symm,
          if_neg fun hh : k = t' => hne hh.symm]
      · simp only [save, if_neg h, load]
        by_cases h' : k = t'
        · rw [if_pos h', if_pos h']
        · rw [if_neg h', if_neg h']
          exact ih

lemma load_unseen : ∀ (s : MemStore) (t : String),
    (∀ e ∈ s, e.1 ≠ t) → load s t = [] := by
  intro s t h
  induction s with
  | nil => rfl
  | cons e rest ih =>
      obtain ⟨k, v⟩ := e
      simp only [load]
      rw [if_neg (h (k, v) (List.mem_cons_self _ _))]
      exact ih fun e' h' => h e' (List.mem_cons_of_mem _ h')

lemma save_save : ∀ (s : MemStore) (t : String) (c : Conversation),
    save (save s t c) t c = save s t c := by
  intro s t c
  induction s with
  | nil => simp [save]
  | cons e rest ih =>
      obtain ⟨k, v⟩ := e
      by_cases h : k = t
      · subst h; simp [save]
      · simp [save, h, ih]

/- ===================================================================
   C10 - the `string_counter` tool
   =================================================================== -/

/-- C10: `calc` (the `string_counter` tool of `tools_01.py`) does not
return the total number of characters its description promises: for
every word it returns the Python `str(dict(Counter(word)))` rendering
of the per-character frequency mapping, in which each distinct
character is mapped to its occurrence count, and it distinguishes
equal-length inputs with different characters. -/
theorem calcTool_renders_char_frequencies :
    (∀ w : String, calcTool w = pyDictRepr (counterOf w.data)) ∧
    (∀ (w : String) (c : Char),
        lookupCount (counterOf w.data) c = w.data.count c) ∧
    calcTool "aa" ≠ calcTool "ab" ∧
    "aa".length = "ab".length ∧
    calcTool "ab" ≠ toString "ab".length := by
  refine ⟨fun _ => rfl, fun w c => ?_, by decide, by decide, by decide⟩
  simpa [counterOf, lookupCount] using lookupCount_foldl w.data [] c

/- ===================================================================
   C9 - the model router
   =================================================================== -/

/-- C9: `route_model` of `agent_01.py` is a pure predicate on the last
formatted message: on every non-empty input it selects the complex
model exactly when the lowercased content of the last message contains
the substring `"search"` or the substring `"trending"`, and the simple
model otherwise (the empty input raises `IndexError`, i.e. `none`). -/
theorem route_model_selects_on_search_or_trending
    (messages : Conversation) (h : messages ≠ []) :
    (route_model messages = some RoutedModel.complex_model ↔
      ("search".data <:+: (toLowerStr (contentOf (messages.getLast h))).data ∨
       "trending".data <:+: (toLowerStr (contentOf (messages.getLast h))).data)) ∧
    (route_model messages = some RoutedModel.simple_model ↔
      ¬ ("search".data <:+: (toLowerStr (contentOf (messages.getLast h))).data ∨
         "trending".data <:+: (toLowerStr (contentOf (messages.getLast h))).data)) := by
  have hlast : messages.getLast? = some (messages.getLast h) :=
    List.getLast?_eq_getLast messages h
  simp only [route_model, hlast]
  by_cases hc :
      "search".data <:+: (toLowerStr (contentOf (messages.getLast h))).data ∨
      "trending".data <:+: (toLowerStr (contentOf (messages.getLast h))).data
  · have : (strContains (toLowerStr (contentOf (messages.getLast h))) "search" ||
        strContains (toLowerStr (contentOf (messages.getLast h))) "trending") = true := by
      rcases hc with hc | hc
      · exact Bool.or_eq_true_iff.mpr (Or.inl ((strContains_iff _ _).mpr hc))
      · exact Bool.or_eq_true_iff.mpr (Or.inr ((strContains_iff _ _).mpr hc))
    simp [this, hc]
  · have : (strContains (toLowerStr (contentOf (messages.getLast h))) "search" ||
        strContains (toLowerStr (contentOf (messages.getLast h))) "trending") = false := by
      rw [Bool.or_eq_false_iff]
      constructor
      · rw [Bool.eq_false_iff]
        intro hx
        exact hc (Or.inl ((strContains_iff _ _).mp hx))
      · rw [Bool.eq_false_iff]
        intro hx
        exact hc (Or.inr ((strContains_iff _ _).mp hx))
    simp [this, hc]

/-- C9 witness: the source's own demo query (which contains both
`"search"` and `"trending"` after lowercasing) is routed to the
complex model. -/
theorem route_model_selects_witness :
    route_model [Msg.human "Search, what is trending in education sector nowadays?"]
      = some RoutedModel.complex_model := by
  have h := route_model_selects_on_search_or_trending
    [Msg.human "Search, what is trending in education sector nowadays?"]
    (by simp)
  exact h.1.mpr (Or.inr (by decide))

/- ===================================================================
   C1 - unregistered tool names in the tool-call loop
   =================================================================== -/

/-- C1 counterexample: with a stub model that requests one call to the
unregistered name `"unknown_tool"`, the loop of `tool_calling_example`
appends no tool Message at all (the call is silently dropped, no
error-bearing answer is fed back) and still re-invokes the model. -/
theorem unknown_tool_call_silently_dropped :
    (unknownToolModel (tce_messages0 "What is the weather in Pune?")).2 =
      [⟨"call1", "unknown_tool", "Mumbai"⟩] ∧
    (tool_calling_example unknownToolModel "What is the weather in Pune?").conv =
      [Msg.human "What is the weather in Pune?",
       Msg.ai "" [⟨"call1", "unknown_tool", "Mumbai"⟩]] ∧
    (tool_calling_example unknownToolModel
        "What is the weather in Pune?").model_invocations = 2 := by
  decide

/-- C1 amended: the loop of `tool_calling_example` never crashes on a
requested call with an unregistered name, but instead of appending an
error-bearing tool Message it silently skips the call: tool Messages
are appended only for requests named `"get_weather"` (exactly one per
matching request), and the model is then re-invoked regardless. -/
theorem tool_messages_only_for_registered_name (model : ChatModel)
    (query : String) :
    (tool_calling_example model query).conv =
      tce_messages1 model query ++ tce_tool_msgs model query ∧
    (∀ c cid nm, Msg.tool c cid nm ∈ (tool_calling_example model query).conv →
      nm = "get_weather") ∧
    (tool_calling_example model query).conv.countP isToolMsg =
      (model (tce_messages0 query)).2.countP
        (fun tc => tc.name == "get_weather") ∧
    (tool_calling_example model query).model_invocations = 2 := by
  refine ⟨rfl, ?_, ?_, rfl⟩
  · intro c cid nm hm
    have hm' : Msg.tool c cid nm ∈
        tce_messages1 model query ++ tce_tool_msgs model query := hm
    simp only [tce_messages1, tce_messages0, tce_ai_msg, tce_tool_msgs,
      List.cons_append, List.nil_append, List.mem_cons, List.mem_append,
      List.mem_map] at hm'
    rcases hm' with h | h | ⟨tc, htc, heq⟩
    · cases h
    · cases h
    · simp only [get_weather_invoke, Msg.tool.injEq] at heq
      have hname : tc.name = "get_weather" := by
        have := (List.mem_filter.mp htc).2
        simpa using this
      rw [← heq.2.2, hname]
  · show (tce_messages1 model query ++ tce_tool_msgs model query).countP
        isToolMsg = _
    simp only [tce_messages1, tce_messages0, tce_ai_msg, tce_tool_msgs,
      List.cons_append, List.nil_append, List.countP_cons, List.countP_append]
    have hall : ((((model (tce_messages0 query)).2.filter
          (fun tc => tc.name == "get_weather")).map
            get_weather_invoke).countP isToolMsg) =
        (((model (tce_messages0 query)).2.filter
          (fun tc => tc.name == "get_weather")).map get_weather_invoke).length := by
      rw [List.countP_eq_length]
      intro m hm
      obtain ⟨tc, _, rfl⟩ := List.mem_map.mp hm
      rfl
    simp only [tce_messages0] at hall
    rw [hall, List.length_map, ← List.countP_eq_length_filter]
    simp [isToolMsg]

/-- C1 amended witness: a stub model requesting one `get_weather` call
and one unregistered call yields exactly one tool message and two model
round-trips. -/
theorem tool_messages_only_for_registered_name_witness :
    (tool_calling_example mixedCallModel "q").conv.countP isToolMsg = 1 ∧
    (tool_calling_example mixedCallModel "q").model_invocations = 2 := by
  have h := tool_messages_only_for_registered_name mixedCallModel "q"
  exact ⟨h.2.2.1.trans (by decide), h.2.2.2⟩

/- ===================================================================
   C2 - round-trip count on a tool-call-free first response
   =================================================================== -/

/-- C2 counterexample: with a stub model whose first response carries
zero tool calls, `tool_calling_example` of `model_01.py` still performs
a second model invocation - two round-trips, not one. -/
theorem no_tool_calls_still_two_roundtrips :
    (noToolModel (tce_messages0 "hi")).2 = [] ∧
    (tool_calling_example noToolModel "hi").model_invocations = 2 := by
  decide

/-- C2 amended: on a first response with zero tool calls, the
`message_01.py` cycle appends the response and stops after exactly one
round-trip, and the spec's tool-call loop ends in `done` after exactly
one round-trip; `tool_calling_example` of `model_01.py`, however,
re-invokes the model unconditionally and always performs two. -/
theorem zero_tool_calls_single_roundtrip (model : ChatModel)
    (reg : ToolRegistry) (query : String) (conv : Conversation) (fuel : Nat)
    (hq : (model [Msg.human query]).2 = [])
    (hc : (model conv).2 = []) :
    model_with_tools_cycle model query =
      { conv := [Msg.human query, Msg.ai (model [Msg.human query]).1 []]
        final_content := (model [Msg.human query]).1
        model_invocations := 1 } ∧
    toolLoop model reg (fuel + 1) conv =
      { conv := conv ++ [Msg.ai (model conv).1 []]
        outcome := LoopOutcome.done
        iterations := 1 } ∧
    (tool_calling_example model query).model_invocations = 2 := by
  refine ⟨?_, ?_, rfl⟩
  · simp [model_with_tools_cycle, invokeCounted, hq]
  · simp only [toolLoop]
    rw [hc]

/-- C2 amended witness: the no-tool stub model runs the
`message_01.py` cycle in one round-trip and the spec loop to `done`. -/
theorem zero_tool_calls_single_roundtrip_witness :
    (model_with_tools_cycle noToolModel "hi").model_invocations = 1 ∧
    (toolLoop noToolModel [] 10 []).outcome = LoopOutcome.done := by
  have h := zero_tool_calls_single_roundtrip noToolModel [] "hi" [] 9 rfl rfl
  exact ⟨by rw [h.1], by rw [show (10 : Nat) = 9 + 1 from rfl, h.2.1]⟩

/- ===================================================================
   C3 - tool messages pair with the introducing assistant message
   =================================================================== -/

/-- C3: in every conversation produced by `tool_calling_example`
(`model_01.py`) and by the `message_01.py` full cycle, every tool
message's `tool_call_id` is one of the call ids carried by the nearest
preceding assistant message - pairing is by call id, never by
position. -/
theorem tool_messages_pair_by_call_id (model : ChatModel) (query : String) :
    toolIdsMatch [] (tool_calling_example model query).conv = true ∧
    toolIdsMatch [] (model_with_tools_cycle model query).conv = true := by
  constructor
  · show toolIdsMatch []
      (tce_messages1 model query ++ tce_tool_msgs model query) = true
    simp only [tce_messages1, tce_messages0, tce_ai_msg, tce_tool_msgs,
      List.cons_append, List.nil_append, toolIdsMatch]
    apply toolIdsMatch_map_get_weather
    intro tc htc
    exact List.mem_map_of_mem _ (List.mem_of_mem_filter htc)
  · rcases hm : (model [Msg.human query]).2 with _ | ⟨tc, tl⟩
    · have hc : (model_with_tools_cycle model query).conv =
          [Msg.human query, Msg.ai (model [Msg.human query]).1 []] := by
        simp [model_with_tools_cycle, invokeCounted, hm]
      rw [hc]
      simp [toolIdsMatch]
    · have hc : (model_with_tools_cycle model query).conv =
          [Msg.human query, Msg.ai (model [Msg.human query]).1 (tc :: tl),
           Msg.tool (pyStrOf (m01_get_weather_invoke tc)) tc.id tc.name] := by
        simp [model_with_tools_cycle, invokeCounted, hm]
      rw [hc]
      simp [toolIdsMatch]

/- ===================================================================
   C4 - the conversation is mutated by appends only
   =================================================================== -/

/-- C4: during a run of the tool-call loop the conversation only
grows by appends: each stage of `tool_calling_example` is a prefix of
the next (so no message is edited, removed or moved and the length
never decreases), and the spec's loop likewise only extends the
conversation it is given. -/
theorem conversation_mutated_by_appends_only (model : ChatModel)
    (reg : ToolRegistry) (query : String) :
    tce_messages0 query <+: tce_messages1 model query ∧
    tce_messages1 model query <+: tce_messages2 model query ∧
    (tool_calling_example model query).conv = tce_messages2 model query ∧
    ∀ (fuel : Nat) (conv : Conversation),
      conv <+: (toolLoop model reg fuel conv).conv :=
  ⟨List.prefix_append _ _, List.prefix_append _ _, rfl,
   toolLoop_conv_prefix model reg⟩

/- ===================================================================
   C5 - streaming refines `complete`
   =================================================================== -/

/-- C5: for every conversation the Model Client's stream is a finite
fragment list in arrival order whose concatenation equals the content
of the single assistant message `complete` returns, and both stream
consumers in the sources (`message_01.py`'s accumulation loop,
`agent_00.py`'s `explain_like_5` generator) reproduce exactly that
content. -/
theorem stream_concatenation_equals_complete (cl : StreamClient)
    (conv : Conversation) (prompt topic : String) :
    String.join (cl.streamRun conv) = contentOf (cl.complete conv) ∧
    stream_full_text cl prompt = contentOf (cl.complete [Msg.human prompt]) ∧
    String.join (explain_like_5 cl topic) =
      contentOf (cl.complete [Msg.human (eli5_prompt topic)]) :=
  ⟨rfl, rfl, rfl⟩

/- ===================================================================
   C6 - the iteration ceiling
   =================================================================== -/

/-- C6: the tool-call loop always stops within the configured ceiling
(default 10) of round-trips, and with a model that requests tool calls
on every response it reports `maxIterationsExceeded` after exactly the
configured number of iterations, never more. -/
theorem loop_halts_at_iteration_ceiling (model : ChatModel)
    (reg : ToolRegistry) (conv : Conversation) (n : Nat) :
    defaultMaxIterations = 10 ∧
    (toolLoop model reg n conv).iterations ≤ n ∧
    ((∀ c, (model c).2 ≠ []) →
      (toolLoop model reg n conv).outcome =
        LoopOutcome.maxIterationsExceeded ∧
      (toolLoop model reg n conv).iterations = n) :=
  ⟨rfl, toolLoop_iterations_le model reg n conv,
   fun h => toolLoop_always_calls_max model reg h n conv⟩

/-- C6 witness: a stub model that always requests a tool call exhausts
the default ceiling and reports `maxIterationsExceeded` after exactly
10 iterations. -/
theorem loop_halts_at_iteration_ceiling_witness :
    (toolLoop alwaysCallModel [] defaultMaxIterations []).outcome =
      LoopOutcome.maxIterationsExceeded ∧
    (toolLoop alwaysCallModel [] defaultMaxIterations []).iterations = 10 := by
  have h := (loop_halts_at_iteration_ceiling alwaysCallModel [] []
    defaultMaxIterations).2.2 (fun c => List.cons_ne_nil _ _)
  exact ⟨h.1, h.2⟩

/- ===================================================================
   C7 - thread-keyed persistence of the memory store
   =================================================================== -/

/-- C7: `load` returns the previously saved conversation for a thread
identifier, or an empty one for a never-seen identifier; a thread is
created on first `save` and other threads are never deleted by it; and
a checkpointed loop invocation starts from the accumulated history, so
what it saves extends what was loaded. -/
theorem memory_store_thread_persistence (model : ChatModel)
    (reg : ToolRegistry) (store : MemStore) (t t' : String)
    (c : Conversation) (u : String) :
    load (save store t c) t = c ∧
    load ([] : MemStore) t = [] ∧
    ((∀ e ∈ store, e.1 ≠ t) → load store t = []) ∧
    (t' ≠ t → load (save store t c) t' = load store t') ∧
    load store t ++ [Msg.human u] <+:
      load (loopInvoke model reg store t u).1 t := by
  refine ⟨load_save_same store t c, rfl, load_unseen store t,
    fun h => load_save_other store t c t' h, ?_⟩
  show load store t ++ [Msg.human u] <+:
    load (save store t (toolLoop model reg defaultMaxIterations
      (load store t ++ [Msg.human u])).conv) t
  rw [load_save_same]
  exact toolLoop_conv_prefix model reg _ _

/-- C7 witness: concrete saves and loads over an initial store holding
one other thread. -/
theorem memory_store_thread_persistence_witness :
    load (save [("t0", [])] "t1" [Msg.human "hi"]) "t1" = [Msg.human "hi"] ∧
    load (save [("t0", [])] "t1" [Msg.human "hi"]) "t0" = [] ∧
    load [("t0", [])] "t1" = [] := by
  have h := memory_store_thread_persistence noToolModel [] [("t0", [])]
    "t1" "t0" [Msg.human "hi"] "u"
  refine ⟨h.1, ?_, h.2.2.1 (by decide)⟩
  rw [h.2.2.2.1 (by decide)]
  decide

/- ===================================================================
   C8 - idempotence of durable save
   =================================================================== -/

/-- C8: saving the same conversation twice under the same thread
identifier leaves the store - and hence every subsequent `load` -
exactly as a single save does. -/
theorem durable_save_idempotent (s : MemStore) (t : String)
    (c : Conversation) :
    save (save s t c) t c = save s t c ∧
    load (save (save s t c) t c) t = load (save s t c) t :=
  ⟨save_save s t c, by rw [save_save]⟩

end Langchain101
